import Mathlib

/-!
Shallow embedding of `src/tools/store/store.go` (package `store`): an
in-memory captcha store with a lookup map `digitsById`, an eviction queue
`idByTime` (a `container/list` of `idByTimeValue` interface values walked
front to back), an advisory counter `numStored`, and fixed configuration
`collectNum` / `expiration`.

Time (`time.Time`, `time.Duration`) is modelled as `Int` (nanoseconds);
the Go expiry test `ev.timestamp.Add(s.expiration).Before(specifyTime)`
becomes `ev.timestamp + s.expiration < specifyTime`.  The Go map is
modelled as a function `String → Option String`.  A `container/list`
element holds an `interface{}` value, so a queue element is modelled by
`QueueElem`: `node v` for a value of the expected shape `idByTimeValue`,
and `junk` for a value of any other dynamic type (the case the type
assertion in `collectOne` rejects).

Concurrency is modelled by sequential interleaving: the fire-and-forget
`go s.collect()` in `Set` becomes an explicit `sweep` operation in the
trace alphabet `Op`, and each `Set`/sweep carries the `time.Now()` value
it observes as an explicit parameter.
-/

namespace MemStore

/-- Go struct `idByTimeValue {timestamp time.Time; id string}`. -/
structure idByTimeValue where
  timestamp : Int
  id : String
deriving DecidableEq, Repr

/-- Dynamic value held by a queue element (`e.Value : interface\x7b\x7d`):
either an `idByTimeValue` as pushed by `Set`, or a value of some other
type, which the assertion `e.Value.(idByTimeValue)` in `collectOne`
would reject. -/
inductive QueueElem where
  | node (v : idByTimeValue)
  | junk
deriving DecidableEq, Repr

/-- Go struct `memoryStore` (the mutex is not part of the sequential
model). -/
structure memoryStore where
  digitsById : String → Option String
  idByTime : List QueueElem
  numStored : Int
  collectNum : Int
  expiration : Int

/-- `NewMemoryStore(collectNum, expiration)`: empty map, empty queue,
zero counter. -/
def newMemoryStore (collectNum expiration : Int) : memoryStore :=
  { digitsById := fun _ => none
    idByTime := []
    numStored := 0
    collectNum := collectNum
    expiration := expiration }

/-- `(*memoryStore).Set(id, value)`: `digitsById[id] = value`,
`idByTime.PushBack(idByTimeValue{time.Now(), id})`, `numStored++`.
The `time.Now()` observed inside the lock is the explicit `now`
parameter; the fire-and-forget `go s.collect()` is modelled as a
separate trace operation. -/
def Set (s : memoryStore) (id value : String) (now : Int) : memoryStore :=
  { s with
    digitsById := fun k => if k = id then some value else s.digitsById k
    idByTime := s.idByTime ++ [QueueElem.node ⟨now, id⟩]
    numStored := s.numStored + 1 }

/-- `(*memoryStore).Get(id, clear)`: look up `digitsById[id]`; on a miss
return the zero value and change nothing; on a hit delete the key first
when `clear` is set.  Returns the value together with the post-state. -/
def Get (s : memoryStore) (id : String) (clear : Bool) : String × memoryStore :=
  match s.digitsById id with
  | none => ("", s)
  | some value =>
    if clear then
      (value, { s with digitsById := fun k => if k = id then none else s.digitsById k })
    else
      (value, s)

/-- `(*memoryStore).collectOne(e, specifyTime)`: `e` is the current
queue element and `rest` the remainder of the list after `e` (what
`e.Next()` walks into).  A failed type assertion returns `nil` (here
`none`); an expired element deletes its id from the map, unlinks `e`,
decrements `numStored` and returns the next element (here `some` of the
post-state, whose queue is `rest`); a live element returns `nil`. -/
def collectOne (s : memoryStore) (e : QueueElem) (rest : List QueueElem)
    (specifyTime : Int) : Option memoryStore :=
  match e with
  | QueueElem.junk => none
  | QueueElem.node ev =>
    if ev.timestamp + s.expiration < specifyTime then
      some { s with
        digitsById := fun k => if k = ev.id then none else s.digitsById k
        idByTime := rest
        numStored := s.numStored - 1 }
    else none

/-- The loop body of `(*memoryStore).collect`:
`for e := s.idByTime.Front(); e != nil { e = s.collectOne(e, now) }`,
structurally recursing along the list that remains in front of the
cursor.  The invariant `s.idByTime = q` holds at every call from
`collect`. -/
def collectFrom (specifyTime : Int) : memoryStore → List QueueElem → memoryStore
  | s, [] => s
  | s, e :: rest =>
    match collectOne s e rest specifyTime with
    | some s2 => collectFrom specifyTime s2 rest
    | none => s

/-- `(*memoryStore).collect()` with the captured `now := time.Now()`
made explicit: walk the queue from the front until `collectOne` stops. -/
def collect (specifyTime : Int) (s : memoryStore) : memoryStore :=
  collectFrom specifyTime s s.idByTime

/-- Trace alphabet for the sequential interleaving model: the public
calls `Set` and `Get` plus the background sweep, each carrying the
`time.Now()` it observes. -/
inductive Op where
  | set (id value : String) (now : Int)
  | get (id : String) (clear : Bool)
  | sweep (now : Int)
deriving DecidableEq, Repr

/-- One operation applied to a store state. -/
def step (s : memoryStore) : Op → memoryStore
  | Op.set id value now => Set s id value now
  | Op.get id clear => (Get s id clear).2
  | Op.sweep now => collect now s

/-- A sequential trace of operations applied in order. -/
def run (s : memoryStore) (ops : List Op) : memoryStore :=
  ops.foldl step s

/-- Whether an operation is a `Set` of the given id (decidable helper
for stating "id is never passed to Set"). -/
def opSetsId (op : Op) (id : String) : Bool :=
  match op with
  | Op.set id2 _ _ => id2 = id
  | _ => false

/-- Whether a queue element is expired at time `t` for expiration
window `exp`: a `node` whose `timestamp + exp < t`; a `junk` element
has no timestamp and counts as not expired. -/
def elemExpired (e : QueueElem) (exp t : Int) : Bool :=
  match e with
  | QueueElem.node ev => decide (ev.timestamp + exp < t)
  | QueueElem.junk => false

/-! ### Basic frame lemmas for `Get` and `Set` -/

/-- A non-clearing `Get` returns the state unchanged. -/
theorem Get_false_state (s : memoryStore) (id : String) :
    (Get s id false).2 = s := by
  unfold Get
  cases h : s.digitsById id <;> simp

/-- Any `Get` leaves the queue untouched. -/
theorem Get_idByTime (s : memoryStore) (id : String) (clear : Bool) :
    (Get s id clear).2.idByTime = s.idByTime := by
  unfold Get
  cases h : s.digitsById id <;> cases clear <;> simp

/-- Any `Get` leaves `numStored` untouched. -/
theorem Get_numStored (s : memoryStore) (id : String) (clear : Bool) :
    (Get s id clear).2.numStored = s.numStored := by
  unfold Get
  cases h : s.digitsById id <;> cases clear <;> simp

/-- Any `Get` leaves `collectNum` untouched. -/
theorem Get_collectNum (s : memoryStore) (id : String) (clear : Bool) :
    (Get s id clear).2.collectNum = s.collectNum := by
  unfold Get
  cases h : s.digitsById id <;> cases clear <;> simp

/-- Any `Get` leaves `expiration` untouched. -/
theorem Get_expiration (s : memoryStore) (id : String) (clear : Bool) :
    (Get s id clear).2.expiration = s.expiration := by
  unfold Get
  cases h : s.digitsById id <;> cases clear <;> simp

/-- On a hit the returned value is the stored one. -/
theorem Get_fst_of_some (s : memoryStore) (id : String) (clear : Bool)
    (v : String) (h : s.digitsById id = some v) :
    (Get s id clear).1 = v := by
  unfold Get
  rw [h]
  cases clear <;> simp

/-- On a miss `Get` returns the zero value and the unchanged state. -/
theorem Get_of_none (s : memoryStore) (id : String) (clear : Bool)
    (h : s.digitsById id = none) :
    Get s id clear = ("", s) := by
  unfold Get
  rw [h]

/-- After a clearing `Get`, the looked-up id maps to nothing. -/
theorem Get_true_digits_self (s : memoryStore) (id : String) :
    (Get s id true).2.digitsById id = none := by
  unfold Get
  cases h : s.digitsById id <;> simp [h]

/-- A clearing `Get` changes no key other than the looked-up one. -/
theorem Get_digits_other (s : memoryStore) (id k : String) (clear : Bool)
    (hk : k ≠ id) :
    (Get s id clear).2.digitsById k = s.digitsById k := by
  unfold Get
  cases h : s.digitsById id <;> cases clear <;> simp [hk]

/-- `Set` stores the value under the id. -/
theorem Set_digits_self (s : memoryStore) (id value : String) (now : Int) :
    (Set s id value now).digitsById id = some value := by
  simp [Set]

/-- `Set` changes no key other than the one set. -/
theorem Set_digits_other (s : memoryStore) (id value : String) (now : Int)
    (k : String) (hk : k ≠ id) :
    (Set s id value now).digitsById k = s.digitsById k := by
  simp [Set, hk]

/-! ### Unfolding lemmas for the sweep loop -/

/-- Empty queue: the loop body never runs. -/
theorem collectFrom_nil (t : Int) (s : memoryStore) :
    collectFrom t s [] = s := rfl

/-- A failed type assertion stops the walk. -/
theorem collectFrom_cons_junk (t : Int) (s : memoryStore)
    (rest : List QueueElem) :
    collectFrom t s (QueueElem.junk :: rest) = s := rfl

/-- An expired element is collected and the walk continues. -/
theorem collectFrom_cons_expired (t : Int) (s : memoryStore)
    (ev : idByTimeValue) (rest : List QueueElem)
    (h : ev.timestamp + s.expiration < t) :
    collectFrom t s (QueueElem.node ev :: rest) =
      collectFrom t
        { s with
          digitsById := fun k => if k = ev.id then none else s.digitsById k
          idByTime := rest
          numStored := s.numStored - 1 } rest := by
  simp [collectFrom, collectOne, h]

/-- A live element stops the walk. -/
theorem collectFrom_cons_live (t : Int) (s : memoryStore)
    (ev : idByTimeValue) (rest : List QueueElem)
    (h : ¬ ev.timestamp + s.expiration < t) :
    collectFrom t s (QueueElem.node ev :: rest) = s := by
  simp [collectFrom, collectOne, h]

/-! ### Global properties of the sweep loop -/

/-- The sweep never (re)introduces a key: a key absent from the map
stays absent through any walk. -/
theorem collectFrom_digits_none (t : Int) :
    ∀ (q : List QueueElem) (s : memoryStore) (id : String),
      s.digitsById id = none → (collectFrom t s q).digitsById id = none := by
  intro q
  induction q with
  | nil => intro s id h; exact h
  | cons e rest ih =>
    intro s id h
    cases e with
    | junk => rw [collectFrom_cons_junk]; exact h
    | node ev =>
      by_cases hc : ev.timestamp + s.expiration < t
      · rw [collectFrom_cons_expired t s ev rest hc]
        apply ih
        simp only
        split <;> [rfl; exact h]
      · rw [collectFrom_cons_live t s ev rest hc]
        exact h

/-- The sweep leaves the configuration fields untouched. -/
theorem collectFrom_config (t : Int) :
    ∀ (q : List QueueElem) (s : memoryStore),
      (collectFrom t s q).collectNum = s.collectNum ∧
      (collectFrom t s q).expiration = s.expiration := by
  intro q
  induction q with
  | nil => intro s; exact ⟨rfl, rfl⟩
  | cons e rest ih =>
    intro s
    cases e with
    | junk => rw [collectFrom_cons_junk]; exact ⟨rfl, rfl⟩
    | node ev =>
      by_cases hc : ev.timestamp + s.expiration < t
      · rw [collectFrom_cons_expired t s ev rest hc]
        exact ih _
      · rw [collectFrom_cons_live t s ev rest hc]
        exact ⟨rfl, rfl⟩

/-- Structure of a sweep pass: it removes exactly a prefix of `k`
elements from the queue, decrements `numStored` once per removed
element, every removed element is an expired `idByTimeValue` node whose
id ends up absent from the map, and keys named by no removed node keep
their value. -/
theorem collectFrom_spec (t : Int) :
    ∀ (q : List QueueElem) (s : memoryStore), s.idByTime = q →
      ∃ k, k ≤ q.length ∧
        (collectFrom t s q).idByTime = q.drop k ∧
        (collectFrom t s q).numStored = s.numStored - (k : Int) ∧
        (∀ e ∈ q.take k, ∃ ev, e = QueueElem.node ev ∧
          ev.timestamp + s.expiration < t ∧
          (collectFrom t s q).digitsById ev.id = none) ∧
        (∀ id, (∀ e ∈ q.take k, ∀ ev, e = QueueElem.node ev → ev.id ≠ id) →
          (collectFrom t s q).digitsById id = s.digitsById id) := by
  intro q
  induction q with
  | nil =>
    intro s hs
    have hcf : collectFrom t s [] = s := rfl
    exact ⟨0, by simp, by rw [hcf]; simpa using hs, by rw [hcf]; simp,
      by simp, fun id _ => by rw [hcf]⟩
  | cons e rest ih =>
    intro s hs
    cases e with
    | junk =>
      have hcf := collectFrom_cons_junk t s rest
      exact ⟨0, by simp, by rw [hcf]; simpa using hs, by rw [hcf]; simp,
        by simp, fun id _ => by rw [hcf]⟩
    | node ev =>
      by_cases hc : ev.timestamp + s.expiration < t
      · obtain ⟨k, hk, hq, hn, hexp, hpres⟩ :=
          ih { s with
                digitsById := fun x => if x = ev.id then none else s.digitsById x
                idByTime := rest
                numStored := s.numStored - 1 } rfl
        rw [collectFrom_cons_expired t s ev rest hc] at *
        refine ⟨k + 1, by simpa using Nat.succ_le_succ hk, ?_, ?_, ?_, ?_⟩
        · simpa using hq
        · rw [hn]; push_cast; ring
        · intro e he
          rw [List.take_succ_cons] at he
          rcases List.mem_cons.mp he with rfl | he2
          · exact ⟨ev, rfl, hc, collectFrom_digits_none t rest _ ev.id (by simp)⟩
          · obtain ⟨ev2, h1, h2, h3⟩ := hexp e he2
            exact ⟨ev2, h1, h2, h3⟩
        · intro id hid
          rw [List.take_succ_cons] at hid
          have hne : ev.id ≠ id :=
            hid (QueueElem.node ev) (List.mem_cons_self _ _) ev rfl
          have h2 := hpres id (fun e2 he2 => hid e2 (List.mem_cons_of_mem _ he2))
          rw [h2]
          simp only
          rw [if_neg (fun h => hne h.symm)]
      · have hcf := collectFrom_cons_live t s ev rest hc
        exact ⟨0, by simp, by rw [hcf]; simpa using hs, by rw [hcf]; simp,
          by simp, fun id _ => by rw [hcf]⟩

/-- After a completed walk the store is a fixed point of `collect` at
the same reference time: the walk stops only at the end of the queue,
at a malformed element, or at a live element. -/
theorem collectFrom_stopped (t : Int) :
    ∀ (q : List QueueElem) (s : memoryStore), s.idByTime = q →
      collect t (collectFrom t s q) = collectFrom t s q := by
  intro q
  induction q with
  | nil =>
    intro s hs
    rw [collectFrom_nil]
    unfold collect
    rw [hs, collectFrom_nil]
  | cons e rest ih =>
    intro s hs
    cases e with
    | junk =>
      rw [collectFrom_cons_junk]
      unfold collect
      rw [hs, collectFrom_cons_junk]
    | node ev =>
      by_cases hc : ev.timestamp + s.expiration < t
      · rw [collectFrom_cons_expired t s ev rest hc]
        exact ih _ rfl
      · rw [collectFrom_cons_live t s ev rest hc]
        unfold collect
        rw [hs, collectFrom_cons_live t s ev rest hc]

/-! ### Invariant preservation along traces -/

/-- A property preserved by every `step` holds after any trace. -/
theorem run_preserve (P : memoryStore → Prop)
    (hstep : ∀ s op, P s → P (step s op)) :
    ∀ (ops : List Op) (s : memoryStore), P s → P (run s ops) := by
  intro ops
  induction ops with
  | nil => intro s h; exact h
  | cons op ops ih => intro s h; exact ih (step s op) (hstep s op h)

/-- A property preserved by every `step` of the trace holds after the
trace. -/
theorem run_preserve_mem (P : memoryStore → Prop) :
    ∀ ops : List Op, (∀ s op, op ∈ ops → P s → P (step s op)) →
      ∀ s : memoryStore, P s → P (run s ops) := by
  intro ops
  induction ops with
  | nil => intro _ s h; exact h
  | cons op ops ih =>
    intro hstep s h
    exact ih (fun s2 op2 hm => hstep s2 op2 (List.mem_cons_of_mem _ hm))
      (step s op) (hstep s op (List.mem_cons_self _ _) h)

/-- A key absent from the map stays absent under any operation that is
not a `Set` of that key. -/
theorem step_digits_none (s : memoryStore) (op : Op) (id : String)
    (hop : opSetsId op id = false) (h : s.digitsById id = none) :
    (step s op).digitsById id = none := by
  cases op with
  | set id2 v now =>
    have hne : id2 ≠ id := by simpa [opSetsId] using hop
    show (Set s id2 v now).digitsById id = none
    rw [Set_digits_other s id2 v now id (fun hh => hne hh.symm)]
    exact h
  | get id2 clear =>
    show (Get s id2 clear).2.digitsById id = none
    by_cases hid : id = id2
    · subst hid
      rw [Get_of_none s id clear h]
      exact h
    · rw [Get_digits_other s id2 id clear hid]
      exact h
  | sweep t =>
    exact collectFrom_digits_none t s.idByTime s id h

/-- A key absent from the map stays absent along any trace that never
`Set`s it. -/
theorem run_digits_none (ops : List Op) (id : String)
    (hops : ∀ op ∈ ops, opSetsId op id = false) :
    ∀ s : memoryStore, s.digitsById id = none →
      (run s ops).digitsById id = none :=
  run_preserve_mem (fun s => s.digitsById id = none) ops
    (fun s op hm h => step_digits_none s op id (hops op hm) h)

/-- Every step keeps the queue made of well-formed `idByTimeValue`
nodes. -/
theorem step_queue_nodes (s : memoryStore) (op : Op)
    (h : ∀ e ∈ s.idByTime, ∃ ev, e = QueueElem.node ev) :
    ∀ e ∈ (step s op).idByTime, ∃ ev, e = QueueElem.node ev := by
  cases op with
  | set id v now =>
    intro e he
    have he2 : e ∈ s.idByTime ++ [QueueElem.node ⟨now, id⟩] := he
    rcases List.mem_append.mp he2 with h1 | h2
    · exact h e h1
    · exact ⟨⟨now, id⟩, by simpa using h2⟩
  | get id clear =>
    intro e he
    rw [show step s (Op.get id clear) = (Get s id clear).2 from rfl,
      Get_idByTime] at he
    exact h e he
  | sweep t =>
    intro e he
    obtain ⟨k, -, hq, -, -, -⟩ := collectFrom_spec t s.idByTime s rfl
    rw [show step s (Op.sweep t) = collectFrom t s s.idByTime from rfl,
      hq] at he
    exact h e (List.drop_subset _ _ he)

/-- Every step keeps `numStored` equal to the queue length. -/
theorem step_numStored_length (s : memoryStore) (op : Op)
    (h : s.numStored = (s.idByTime.length : Int)) :
    (step s op).numStored = ((step s op).idByTime.length : Int) := by
  cases op with
  | set id v now =>
    show (Set s id v now).numStored = ((Set s id v now).idByTime.length : Int)
    simp only [Set, List.length_append, List.length_cons, List.length_nil]
    push_cast
    omega
  | get id clear =>
    rw [show step s (Op.get id clear) = (Get s id clear).2 from rfl,
      Get_numStored, Get_idByTime]
    exact h
  | sweep t =>
    obtain ⟨k, hk, hq, hn, -, -⟩ := collectFrom_spec t s.idByTime s rfl
    show (collectFrom t s s.idByTime).numStored =
      ((collectFrom t s s.idByTime).idByTime.length : Int)
    rw [hn, hq, List.length_drop, h]
    omega

/-! ### The claims -/

/-- Claim C1: after `Set(id, value)` at time `now1` on a fresh store, a
sweep at a later time `now2` makes the entry unretrievable when
`now2 - now1` exceeds the configured ttl, and leaves it retrievable
(`Get` returns `value`) when `now2 - now1` is below the ttl. -/
theorem C1_set_then_sweep_ttl (cn exp : Int) (id value : String)
    (now1 now2 : Int) :
    (now2 - now1 > exp →
      (Get (collect now2 (Set (newMemoryStore cn exp) id value now1))
        id false).1 = "") ∧
    (now2 - now1 < exp →
      (Get (collect now2 (Set (newMemoryStore cn exp) id value now1))
        id false).1 = value) := by
  constructor
  · intro h
    have hc : now1 + exp < now2 := by omega
    simp [collect, Set, newMemoryStore, collectFrom, collectOne, Get, hc]
  · intro h
    have hc : ¬ now1 + exp < now2 := by omega
    simp [collect, Set, newMemoryStore, collectFrom, collectOne, Get, hc]

/-- Witness for C1 at `ttl = 10`, `Set` at time `0`: a sweep at time
`20` erases the entry, a sweep at time `5` keeps it. -/
theorem C1_set_then_sweep_ttl_witness :
    ((20 : Int) - 0 > 10 ∧
      (Get (collect 20 (Set (newMemoryStore 5 10) "a" "v" 0))
        "a" false).1 = "") ∧
    ((5 : Int) - 0 < 10 ∧
      (Get (collect 5 (Set (newMemoryStore 5 10) "a" "v" 0))
        "a" false).1 = "v") :=
  ⟨⟨by decide, (C1_set_then_sweep_ttl 5 10 "a" "v" 0 20).1 (by decide)⟩,
   ⟨by decide, (C1_set_then_sweep_ttl 5 10 "a" "v" 0 5).2 (by decide)⟩⟩

/-- Counterexample to claim C2 as stated: in the reachable state built
by `Set("a","v1")` at time 0 and `Set("a","v2")` at time 5 with
`ttl = 10`, a sweep at time 12 removes `"a"` from the index although the
age since its most recent `Set` is `12 - 5 = 7 < 10`: the expired stale
queue node left by the overwritten first `Set` carries the same id. -/
theorem C2_counterexample_stale_node :
    ((12 : Int) - 5 < 10) ∧
    (run (newMemoryStore 100 10)
      [Op.set "a" "v1" 0, Op.set "a" "v2" 5]).digitsById "a" = some "v2" ∧
    (collect 12 (run (newMemoryStore 100 10)
      [Op.set "a" "v1" 0, Op.set "a" "v2" 5])).digitsById "a" = none :=
  ⟨by decide, by decide, by decide⟩

/-- Claim C2 (amended): a sweep removes exactly a prefix of the
eviction queue; every removed element is an `idByTimeValue` node older
than the ttl — so no queue node younger than the ttl is ever removed —
and the id of every removed node is absent from the index once the pass
ends (nothing expired is left behind once scanned past); the index
entry of an id named by no removed node is untouched.  (The sweep can
however remove an index entry whose most recent `Set` is younger than
the ttl, through an expired stale queue node of an earlier overwritten
`Set` with the same id.) -/
theorem C2_sweep_monotone_on_queue (t : Int) (s : memoryStore) :
    ∃ k, k ≤ s.idByTime.length ∧
      (collect t s).idByTime = s.idByTime.drop k ∧
      (∀ e ∈ s.idByTime.take k, ∃ ev, e = QueueElem.node ev ∧
        ev.timestamp + s.expiration < t ∧
        (collect t s).digitsById ev.id = none) ∧
      (∀ id, (∀ e ∈ s.idByTime.take k, ∀ ev,
          e = QueueElem.node ev → ev.id ≠ id) →
        (collect t s).digitsById id = s.digitsById id) := by
  obtain ⟨k, hk, hq, -, hexp, hpres⟩ := collectFrom_spec t s.idByTime s rfl
  exact ⟨k, hk, hq, hexp, hpres⟩

/-- Witness for the amended C2 on a concrete two-element queue. -/
theorem C2_sweep_monotone_on_queue_witness :
    ∃ k, k ≤ (run (newMemoryStore 100 10)
        [Op.set "a" "v1" 0, Op.set "b" "v2" 5]).idByTime.length ∧
      (collect 12 (run (newMemoryStore 100 10)
        [Op.set "a" "v1" 0, Op.set "b" "v2" 5])).idByTime =
        (run (newMemoryStore 100 10)
          [Op.set "a" "v1" 0, Op.set "b" "v2" 5]).idByTime.drop k ∧
      (∀ e ∈ (run (newMemoryStore 100 10)
          [Op.set "a" "v1" 0, Op.set "b" "v2" 5]).idByTime.take k,
        ∃ ev, e = QueueElem.node ev ∧
          ev.timestamp + (run (newMemoryStore 100 10)
            [Op.set "a" "v1" 0, Op.set "b" "v2" 5]).expiration < 12 ∧
          (collect 12 (run (newMemoryStore 100 10)
            [Op.set "a" "v1" 0, Op.set "b" "v2" 5])).digitsById ev.id = none) ∧
      (∀ id, (∀ e ∈ (run (newMemoryStore 100 10)
            [Op.set "a" "v1" 0, Op.set "b" "v2" 5]).idByTime.take k, ∀ ev,
          e = QueueElem.node ev → ev.id ≠ id) →
        (collect 12 (run (newMemoryStore 100 10)
          [Op.set "a" "v1" 0, Op.set "b" "v2" 5])).digitsById id =
          (run (newMemoryStore 100 10)
            [Op.set "a" "v1" 0, Op.set "b" "v2" 5]).digitsById id) :=
  C2_sweep_monotone_on_queue 12
    (run (newMemoryStore 100 10) [Op.set "a" "v1" 0, Op.set "b" "v2" 5])

/-- Claim C3: immediately after `Set(id, value)`, a non-clearing
`Get(id, false)` returns `value`, changes nothing, and a repeated
non-clearing read returns `value` again. -/
theorem C3_nonclearing_read_idempotent (s : memoryStore)
    (id value : String) (now : Int) :
    (Get (Set s id value now) id false).1 = value ∧
    (Get (Set s id value now) id false).2 = Set s id value now ∧
    (Get ((Get (Set s id value now) id false).2) id false).1 = value := by
  refine ⟨?_, Get_false_state _ id, ?_⟩
  · exact Get_fst_of_some _ id false value (Set_digits_self s id value now)
  · rw [Get_false_state _ id]
    exact Get_fst_of_some _ id false value (Set_digits_self s id value now)

/-- Witness for C3 on a concrete store. -/
theorem C3_nonclearing_read_idempotent_witness :
    (Get (Set (newMemoryStore 5 10) "a" "v" 0) "a" false).1 = "v" ∧
    (Get (Set (newMemoryStore 5 10) "a" "v" 0) "a" false).2 =
      Set (newMemoryStore 5 10) "a" "v" 0 ∧
    (Get ((Get (Set (newMemoryStore 5 10) "a" "v" 0) "a" false).2)
      "a" false).1 = "v" :=
  C3_nonclearing_read_idempotent (newMemoryStore 5 10) "a" "v" 0

/-- Claim C4: after `Set(id, value)` with no intervening sweep,
`Get(id, true)` returns `value` exactly once; afterwards, along any
trace that never `Set`s `id` again, `Get(id, clear)` returns the zero
value for either `clear` flag. -/
theorem C4_clearing_read_consumes (s : memoryStore) (id value : String)
    (now : Int) (ops : List Op) (clear : Bool)
    (hops : ∀ op ∈ ops, opSetsId op id = false) :
    (Get (Set s id value now) id true).1 = value ∧
    (Get (run (Get (Set s id value now) id true).2 ops) id clear).1 = "" := by
  constructor
  · exact Get_fst_of_some _ id true value (Set_digits_self s id value now)
  · have h0 : (Get (Set s id value now) id true).2.digitsById id = none :=
      Get_true_digits_self _ id
    have h1 := run_digits_none ops id hops _ h0
    rw [Get_of_none _ id clear h1]

/-- Witness for C4: set, consume, sweep, then both flavours of read
miss. -/
theorem C4_clearing_read_consumes_witness :
    (∀ op ∈ ([Op.sweep 3, Op.get "a" true] : List Op),
      opSetsId op "a" = false) ∧
    (Get (Set (newMemoryStore 5 10) "a" "v" 0) "a" true).1 = "v" ∧
    (Get (run (Get (Set (newMemoryStore 5 10) "a" "v" 0) "a" true).2
      [Op.sweep 3, Op.get "a" true]) "a" false).1 = "" :=
  ⟨by decide, C4_clearing_read_consumes (newMemoryStore 5 10) "a" "v" 0
    [Op.sweep 3, Op.get "a" true] false (by decide)⟩

/-- Claim C5: on any trace from a fresh store that never `Set`s `id`,
both `Get(id, false)` and `Get(id, true)` return the zero value. -/
theorem C5_unset_id_reads_zero (cn exp : Int) (ops : List Op) (id : String)
    (hops : ∀ op ∈ ops, opSetsId op id = false) :
    (Get (run (newMemoryStore cn exp) ops) id false).1 = "" ∧
    (Get (run (newMemoryStore cn exp) ops) id true).1 = "" := by
  have hnone : (run (newMemoryStore cn exp) ops).digitsById id = none :=
    run_digits_none ops id hops (newMemoryStore cn exp) rfl
  constructor <;> rw [Get_of_none _ id _ hnone]

/-- Witness for C5: a trace touching only other ids. -/
theorem C5_unset_id_reads_zero_witness :
    (∀ op ∈ ([Op.set "b" "x" 0, Op.sweep 3] : List Op),
      opSetsId op "a" = false) ∧
    (Get (run (newMemoryStore 5 10) [Op.set "b" "x" 0, Op.sweep 3])
      "a" false).1 = "" ∧
    (Get (run (newMemoryStore 5 10) [Op.set "b" "x" 0, Op.sweep 3])
      "a" true).1 = "" :=
  ⟨by decide, C5_unset_id_reads_zero 5 10 [Op.set "b" "x" 0, Op.sweep 3]
    "a" (by decide)⟩

/-- Claim C6: a sweep in a state with no expired queue element leaves
the store (index, queue and `numStored` alike) unchanged, and sweeping
twice at the same reference time equals sweeping once. -/
theorem C6_sweep_noop_and_idempotent (t : Int) (s : memoryStore) :
    ((∀ e ∈ s.idByTime, elemExpired e s.expiration t = false) →
      collect t s = s) ∧
    collect t (collect t s) = collect t s := by
  constructor
  · intro h
    show collectFrom t s s.idByTime = s
    rcases hq : s.idByTime with - | ⟨e, rest⟩
    · rw [collectFrom_nil]
    · cases e with
      | junk => rw [collectFrom_cons_junk]
      | node ev =>
        have hm := h (QueueElem.node ev)
          (by rw [hq]; exact List.mem_cons_self _ _)
        have hc : ¬ ev.timestamp + s.expiration < t := by
          simpa [elemExpired] using hm
        rw [collectFrom_cons_live t s ev rest hc]
  · exact collectFrom_stopped t s.idByTime s rfl

/-- Witness for C6: one live entry, sweep at time 3 with ttl 10. -/
theorem C6_sweep_noop_and_idempotent_witness :
    (∀ e ∈ (Set (newMemoryStore 5 10) "a" "v" 0).idByTime,
      elemExpired e (Set (newMemoryStore 5 10) "a" "v" 0).expiration 3
        = false) ∧
    collect 3 (Set (newMemoryStore 5 10) "a" "v" 0) =
      Set (newMemoryStore 5 10) "a" "v" 0 :=
  ⟨by decide,
    (C6_sweep_noop_and_idempotent 3 (Set (newMemoryStore 5 10) "a" "v" 0)).1
      (by decide)⟩

/-- Claim C7: no `Get` ever touches the eviction queue or `numStored`;
a clearing `Get` on a present id deletes the index entry only; and a
sweep decrements `numStored` exactly once per queue node it actually
removes. -/
theorem C7_get_frame_effects (s : memoryStore) (id : String) :
    (∀ clear, (Get s id clear).2.idByTime = s.idByTime ∧
      (Get s id clear).2.numStored = s.numStored) ∧
    (s.digitsById id ≠ none → (Get s id true).2.digitsById id = none) ∧
    (∀ t, (collect t s).numStored =
      s.numStored - ((s.idByTime.length : Int) -
        ((collect t s).idByTime.length : Int))) := by
  refine ⟨fun clear => ⟨Get_idByTime s id clear, Get_numStored s id clear⟩,
    fun _ => Get_true_digits_self s id, fun t => ?_⟩
  obtain ⟨k, hk, hq, hn, -, -⟩ := collectFrom_spec t s.idByTime s rfl
  show (collectFrom t s s.idByTime).numStored =
    s.numStored - ((s.idByTime.length : Int) -
      ((collectFrom t s s.idByTime).idByTime.length : Int))
  rw [hn, hq, List.length_drop]
  omega

/-- Witness for C7 on a store holding one entry. -/
theorem C7_get_frame_effects_witness :
    ((Set (newMemoryStore 5 10) "a" "v" 0).digitsById "a" ≠ none) ∧
    (Get (Set (newMemoryStore 5 10) "a" "v" 0) "a" true).2.digitsById "a"
      = none :=
  ⟨by decide,
    (C7_get_frame_effects (Set (newMemoryStore 5 10) "a" "v" 0) "a").2.1
      (by decide)⟩

/-- Claim C8: in every state reachable from `NewMemoryStore` by `Set`,
`Get` and sweeps, every eviction-queue element is a well-formed
`idByTimeValue` node, so the type-assertion-failure branch of
`collectOne` (the `junk` case) is unreachable. -/
theorem C8_queue_elements_well_formed (cn exp : Int) (ops : List Op)
    (e : QueueElem)
    (he : e ∈ (run (newMemoryStore cn exp) ops).idByTime) :
    ∃ ev, e = QueueElem.node ev :=
  run_preserve (fun s => ∀ e2 ∈ s.idByTime, ∃ ev, e2 = QueueElem.node ev)
    step_queue_nodes ops (newMemoryStore cn exp)
    (by intro e2 he2; simp [newMemoryStore] at he2) e he

/-- Witness for C8 on a one-`Set` trace. -/
theorem C8_queue_elements_well_formed_witness :
    QueueElem.node ⟨0, "a"⟩ ∈
      (run (newMemoryStore 5 10) [Op.set "a" "v" 0]).idByTime ∧
    ∃ ev, QueueElem.node (⟨0, "a"⟩ : idByTimeValue) = QueueElem.node ev :=
  ⟨by decide, C8_queue_elements_well_formed 5 10 [Op.set "a" "v" 0]
    (QueueElem.node ⟨0, "a"⟩) (by decide)⟩

/-- Claim C9: in every state reachable from `NewMemoryStore` by a
sequential trace of `Set`, `Get` and sweep operations, `numStored`
equals the length of the eviction queue. -/
theorem C9_numStored_eq_queue_length (cn exp : Int) (ops : List Op) :
    (run (newMemoryStore cn exp) ops).numStored =
      ((run (newMemoryStore cn exp) ops).idByTime.length : Int) :=
  run_preserve (fun s => s.numStored = (s.idByTime.length : Int))
    step_numStored_length ops (newMemoryStore cn exp) (by simp [newMemoryStore])

/-- Witness for C9 on a trace with two `Set`s, a consuming read and a
sweep. -/
theorem C9_numStored_eq_queue_length_witness :
    (run (newMemoryStore 2 10)
      [Op.set "a" "v" 0, Op.set "b" "w" 1, Op.get "a" true,
        Op.sweep 20]).numStored =
      ((run (newMemoryStore 2 10)
        [Op.set "a" "v" 0, Op.set "b" "w" 1, Op.get "a" true,
          Op.sweep 20]).idByTime.length : Int) :=
  C9_numStored_eq_queue_length 2 10
    [Op.set "a" "v" 0, Op.set "b" "w" 1, Op.get "a" true, Op.sweep 20]

/-- Claim C10: a clearing `Get` on an id absent from the index returns
the zero value and the exact same state: no mutation of the index, the
queue or `numStored`. -/
theorem C10_clearing_miss_no_mutation (s : memoryStore) (id : String)
    (h : s.digitsById id = none) :
    Get s id true = ("", s) :=
  Get_of_none s id true h

/-- Witness for C10 on a fresh store. -/
theorem C10_clearing_miss_no_mutation_witness :
    (newMemoryStore 1 2).digitsById "a" = none ∧
    Get (newMemoryStore 1 2) "a" true = ("", newMemoryStore 1 2) :=
  ⟨rfl, C10_clearing_miss_no_mutation (newMemoryStore 1 2) "a" rfl⟩

end MemStore
